import Mathlib

/-!
Shallow embedding of the notify-server model layer (`src/model/helpers.rs`).

The backing Postgres store is modelled as an explicit state (`DB`) holding the
four tables as lists of rows; each SQL statement of the source becomes a pure
function on that state.  Timestamps are integers (seconds); `now` is passed
explicitly wherever the source calls `Utc::now()` / SQL `now()`.
Transactions: every statement of a transactional operation acts on the
transaction state (a `DB` value snapshotted at `begin`), and only `commit`
publishes it; an error anywhere leaves the caller with the original `DB`
(rollback).  Fallible variants (`...F`) take a failure schedule `fails :
Nat → Bool` giving which statement (by index) fails, modelling connectivity
or constraint errors surfaced by sqlx.
-/

namespace NotifyServer

/-- Scope identifiers are `uuid::Uuid` values in the source. -/
abbrev Uuid := Nat

/-- Modelled from the spec: encoding of a scope UUID to its stored string form
(the `uuid` crate and the Postgres uuid-to-text encoding are external
collaborators, not in `src/`).  Modelled as a non-empty unary string so that
the round-trip contract `parseUuid (encodeUuid u) = some u` holds. -/
def encodeUuid (u : Uuid) : String :=
  ⟨List.replicate (u + 1) 'u'⟩

/-- Modelled from the spec: `Uuid::parse_str`, an external collaborator.
Returns `none` exactly on strings that are not encodings of a UUID. -/
def parseUuid (s : String) : Option Uuid :=
  if s.data ≠ [] ∧ s.data.all (fun c => c == 'u') then some (s.data.length - 1) else none

/-- Row of the `project` table. -/
structure ProjectRow where
  id : Nat
  project_id : String
  app_domain : String
  topic : String
  authentication_public_key : String
  authentication_private_key : String
  subscribe_public_key : String
  subscribe_private_key : String
  created_at : Int
  updated_at : Int
deriving DecidableEq, Repr

/-- Row of the `subscriber` table (the source's `Subscriber` type). -/
structure SubscriberRow where
  id : Nat
  project : Nat
  account : String
  sym_key : String
  topic : String
  expiry : Int
  created_at : Int
  updated_at : Int
deriving DecidableEq, Repr

/-- Row of the `subscriber_scope` table. -/
structure ScopeRow where
  subscriber : Nat
  name : String
deriving DecidableEq, Repr

/-- Row of the `subscription_watcher` table. -/
structure WatcherRow where
  account : String
  project : Option Nat
  did_key : String
  sym_key : String
  expiry : Int
  created_at : Int
  updated_at : Int
deriving DecidableEq, Repr

/-- The backing store: the four tables, plus the id sequences backing the
`id` columns' defaults. -/
structure DB where
  projects : List ProjectRow
  subscribers : List SubscriberRow
  scopes : List ScopeRow
  watchers : List WatcherRow
  nextProjectId : Nat
  nextSubscriberId : Nat
deriving DecidableEq, Repr

/-- Result shape of `upsert_project`. -/
structure ProjectWithPublicKeys where
  authentication_public_key : String
  subscribe_public_key : String
deriving DecidableEq, Repr

/-- The statement of `upsert_project_impl`: `INSERT INTO project ... ON CONFLICT (project_id)
DO UPDATE SET updated_at=now(), app_domain=$2 RETURNING
authentication_public_key, subscribe_public_key`.  On conflict only the
conflicting row (the one with the same `project_id`; unique, hence the first
match) is updated, and the RETURNING clause yields its stored keys. -/
def upsert_project_impl (project_id app_domain topic : String)
    (authentication_public_key authentication_private_key : String)
    (subscribe_public_key subscribe_private_key : String)
    (now : Int) (db : DB) : DB × ProjectWithPublicKeys :=
  match db.projects.find? (fun p => p.project_id == project_id) with
  | some p =>
      ({ db with projects := db.projects.map fun q =>
            if q.id == p.id then { q with updated_at := now, app_domain := app_domain } else q },
       ⟨p.authentication_public_key, p.subscribe_public_key⟩)
  | none =>
      ({ db with
          projects := db.projects ++
            [⟨db.nextProjectId, project_id, app_domain, topic,
              authentication_public_key, authentication_private_key,
              subscribe_public_key, subscribe_private_key, now, now⟩],
          nextProjectId := db.nextProjectId + 1 },
       ⟨authentication_public_key, subscribe_public_key⟩)

/-- Thirty days (`chrono::Duration::days(30)`) in seconds. -/
def thirtyDays : Int := 30 * 24 * 60 * 60

/-- The first statement of `upsert_subscriber`: `INSERT INTO subscriber ...
ON CONFLICT (project, account) DO UPDATE SET updated_at=now(), sym_key=$3,
topic=$4, expiry=$5 RETURNING id`.  The conflicting row is the (unique, hence
first) row with the same `(project, account)`; `$5` is `now + 30 days`. -/
def subscriberUpsertQuery (project : Nat) (account sym_key topic : String)
    (now : Int) (db : DB) : DB × Nat :=
  match db.subscribers.find? (fun s => s.project == project && s.account == account) with
  | some s =>
      ({ db with subscribers := db.subscribers.map fun t =>
            if t.id == s.id then
              { t with updated_at := now, sym_key := sym_key, topic := topic,
                       expiry := now + thirtyDays }
            else t },
       s.id)
  | none =>
      ({ db with
          subscribers := db.subscribers ++
            [⟨db.nextSubscriberId, project, account, sym_key, topic,
              now + thirtyDays, now, now⟩],
          nextSubscriberId := db.nextSubscriberId + 1 },
       db.nextSubscriberId)

/-- The statement `DELETE FROM subscriber_scope WHERE subscriber=$1`. -/
def scopeDeleteQuery (subscriber : Nat) (db : DB) : DB :=
  { db with scopes := db.scopes.filter fun c => !(c.subscriber == subscriber) }

/-- The statement `INSERT INTO subscriber_scope (subscriber, name) SELECT $1, name FROM
UNNEST($2)`: one row per element of the bound list (the source binds the
`HashSet<Uuid>` collected into a `Vec` in arbitrary iteration order, so the
input here is that list). -/
def scopeInsertQuery (subscriber : Nat) (scope : List Uuid) (db : DB) : DB :=
  { db with scopes := db.scopes ++ scope.map fun u => ⟨subscriber, encodeUuid u⟩ }

/-- The source's `update_subscriber_scope`: within the caller's transaction, delete every
scope row of the subscriber, then insert one row per element of `scope`. -/
def update_subscriber_scope (subscriber : Nat) (scope : List Uuid) (db : DB) : DB :=
  scopeInsertQuery subscriber scope (scopeDeleteQuery subscriber db)

/-- The source's `upsert_subscriber` (successful run): subscriber upsert then scope
replacement, one transaction, returning the subscriber id.  `sym_key` stands
for `hex::encode(notify_key)` (external collaborator). -/
def upsert_subscriber (project : Nat) (account : String) (scope : List Uuid)
    (sym_key notify_topic : String) (now : Int) (db : DB) : DB × Nat :=
  let r := subscriberUpsertQuery project account sym_key notify_topic now db
  (update_subscriber_scope r.2 scope r.1, r.2)

/-- The first statement of `update_subscriber`: `UPDATE subscriber SET
updated_at=now(), expiry=$1 WHERE project=$2 AND account=$3 RETURNING *`,
run with `fetch_one`: `none` (RowNotFound) when no row matches; otherwise
every matching row is updated and the first is returned. -/
def subscriberUpdateQuery (project : Nat) (account : String) (now : Int)
    (db : DB) : Option (DB × SubscriberRow) :=
  match db.subscribers.find? (fun s => s.project == project && s.account == account) with
  | none => none
  | some s =>
      some ({ db with subscribers := db.subscribers.map fun t =>
                if t.project == project && t.account == account then
                  { t with updated_at := now, expiry := now + thirtyDays }
                else t },
            { s with updated_at := now, expiry := now + thirtyDays })

/-- The source's `update_subscriber` (successful run): subscriber update then scope
replacement, one transaction, returning the updated row; `none` when no
subscriber exists for `(project, account)`. -/
def update_subscriber (project : Nat) (account : String) (scope : List Uuid)
    (now : Int) (db : DB) : Option (DB × SubscriberRow) :=
  match subscriberUpdateQuery project account now db with
  | none => none
  | some (txn, s) => some (update_subscriber_scope s.id scope txn, s)

/-- Run of `upsert_subscriber` with a failure schedule: statement 0 is the
subscriber upsert, 1 the scope delete, 2 the scope insert, 3 the commit.
A failure anywhere aborts the transaction; the caller's committed state is
then still the unchanged input `db` (rollback). -/
def upsert_subscriberF (fails : Nat → Bool) (project : Nat) (account : String)
    (scope : List Uuid) (sym_key notify_topic : String) (now : Int) (db : DB) :
    Except Unit (DB × Nat) :=
  if fails 0 then .error () else
  let r := subscriberUpsertQuery project account sym_key notify_topic now db
  if fails 1 then .error () else
  let txn1 := scopeDeleteQuery r.2 r.1
  if fails 2 then .error () else
  let txn2 := scopeInsertQuery r.2 scope txn1
  if fails 3 then .error () else
  .ok (txn2, r.2)

/-- Run of `update_subscriber` with a failure schedule: statement 0 is the
subscriber update (which also fails, genuinely, when no row matches),
1 the scope delete, 2 the scope insert, 3 the commit. -/
def update_subscriberF (fails : Nat → Bool) (project : Nat) (account : String)
    (scope : List Uuid) (now : Int) (db : DB) :
    Except Unit (DB × SubscriberRow) :=
  if fails 0 then .error () else
  match subscriberUpdateQuery project account now db with
  | none => .error ()
  | some (txn, s) =>
    if fails 1 then .error () else
    let txn1 := scopeDeleteQuery s.id txn
    if fails 2 then .error () else
    let txn2 := scopeInsertQuery s.id scope txn1
    if fails 3 then .error () else
    .ok (txn2, s)

/-- The source's `parse_scopes_and_ignore_invalid`: entries that fail to parse are dropped;
the parsed values are collected into a set (`HashSet<Uuid>` in the source). -/
def parse_scopes_and_ignore_invalid (scopes : List String) : Finset Uuid :=
  (scopes.filterMap parseUuid).toFinset

/-- The `array_agg(subscriber_scope.name)` aggregate over the scope rows of
one subscriber. -/
def scopeNamesOf (db : DB) (subscriber : Nat) : List String :=
  (db.scopes.filter fun c => c.subscriber == subscriber).map (·.name)

/-- Result shape of `get_subscriber_by_topic` / `get_subscribers_for_project_in`. -/
structure SubscriberWithScope where
  id : Nat
  project : Nat
  account : String
  sym_key : String
  topic : String
  scope : Finset Uuid
  expiry : Int
deriving DecidableEq

/-- Decoding step shared by the subscriber-with-scope reads
(`SubscriberWithScopeResult` → `SubscriberWithScope`). -/
def subscriberWithScope (db : DB) (s : SubscriberRow) : SubscriberWithScope :=
  { id := s.id, project := s.project, account := s.account, sym_key := s.sym_key,
    topic := s.topic, scope := parse_scopes_and_ignore_invalid (scopeNamesOf db s.id),
    expiry := s.expiry }

/-- The source's `get_subscriber_by_topic`: subscriber INNER JOIN subscriber_scope, `WHERE
topic=$1`, grouped per subscriber, `fetch_one`.  A subscriber with no scope
rows produces no join row, hence no group; with no group at all the fetch
fails (`none`). -/
def get_subscriber_by_topic (topic : String) (db : DB) : Option SubscriberWithScope :=
  ((db.subscribers.filter fun s =>
      s.topic == topic && !(scopeNamesOf db s.id).isEmpty).head?).map
    (subscriberWithScope db)

/-- The source's `get_subscribers_for_project_in`: subscriber INNER JOIN subscriber_scope,
`WHERE project=$1 AND account = ANY($2)`, grouped per subscriber. -/
def get_subscribers_for_project_in (project : Nat) (accounts : List String)
    (db : DB) : List SubscriberWithScope :=
  (db.subscribers.filter fun s =>
      s.project == project && accounts.contains s.account
        && !(scopeNamesOf db s.id).isEmpty).map
    (subscriberWithScope db)

/-- Result shape of `get_subscriptions_by_account`. -/
structure SubscriberWithProject where
  app_domain : String
  authentication_public_key : String
  account : String
  sym_key : String
  scope : Finset Uuid
  expiry : Int
deriving DecidableEq

/-- The GROUP BY key of `get_subscriptions_by_account` (note: it does not
include `subscriber.id`). -/
structure SubProjKey where
  app_domain : String
  authentication_public_key : String
  account : String
  sym_key : String
  expiry : Int
deriving DecidableEq

/-- The join rows of `get_subscriptions_by_account` before grouping:
subscriber INNER JOIN project INNER JOIN subscriber_scope, `WHERE
account=$1`; each row carries its GROUP BY key and one scope name. -/
def subsByAccountRows (account : String) (db : DB) : List (SubProjKey × String) :=
  db.subscribers.flatMap fun s =>
    if s.account == account then
      (db.projects.filter fun p => p.id == s.project).flatMap fun p =>
        (db.scopes.filter fun c => c.subscriber == s.id).map fun c =>
          (⟨p.app_domain, p.authentication_public_key, s.account, s.sym_key, s.expiry⟩,
           c.name)
    else []

/-- The source's `get_subscriptions_by_account`: group the join rows by the GROUP BY key,
aggregating the scope names of each group, then decode. -/
def get_subscriptions_by_account (account : String) (db : DB) :
    List SubscriberWithProject :=
  let rows := subsByAccountRows account db
  (rows.map Prod.fst).dedup.map fun k =>
    { app_domain := k.app_domain,
      authentication_public_key := k.authentication_public_key,
      account := k.account, sym_key := k.sym_key,
      scope := parse_scopes_and_ignore_invalid
        ((rows.filter fun r => decide (r.1 = k)).map (·.2)),
      expiry := k.expiry }

/-- The source's `upsert_subscription_watcher`: `INSERT INTO subscription_watcher ... ON
CONFLICT (did_key) DO UPDATE SET updated_at=now(), account=$1, project=$2,
sym_key=$4, expiry=$5`. -/
def upsert_subscription_watcher (account : String) (project : Option Nat)
    (did_key sym_key : String) (expiry now : Int) (db : DB) : DB :=
  match db.watchers.find? (fun w => w.did_key == did_key) with
  | some _ =>
      { db with watchers := db.watchers.map fun w =>
          if w.did_key == did_key then
            { w with updated_at := now, account := account, project := project,
                     sym_key := sym_key, expiry := expiry }
          else w }
  | none =>
      { db with watchers := db.watchers ++
          [⟨account, project, did_key, sym_key, expiry, now, now⟩] }

/-- Result shape of the watcher query. -/
structure SubscriptionWatcherQuery where
  project : Option Nat
  did_key : String
  sym_key : String
deriving DecidableEq, Repr

/-- The `(project IS NULL OR project.app_domain=$2)` condition over the LEFT
JOIN with `project`: a global watcher always passes; a project-scoped one
passes only when its project row exists and has the given app domain. -/
def watcherAppMatch (app_domain : String) (db : DB) (w : WatcherRow) : Bool :=
  match w.project with
  | none => true
  | some pid => db.projects.any fun p => p.id == pid && p.app_domain == app_domain

/-- The source's `get_subscription_watchers_for_account_by_app_or_all_app`: rows with
`expiry > now()`, the given account, and a null or app-domain-matching
project. -/
def get_subscription_watchers_for_account_by_app_or_all_app
    (account app_domain : String) (now : Int) (db : DB) :
    List SubscriptionWatcherQuery :=
  (db.watchers.filter fun w =>
      decide (now < w.expiry) && w.account == account
        && watcherAppMatch app_domain db w).map
    fun w => ⟨w.project, w.did_key, w.sym_key⟩

/-- The source's `delete_expired_subscription_watchers`: `DELETE FROM subscription_watcher
WHERE expiry <= now() RETURNING *`, then `count(*)` over the deleted rows. -/
def delete_expired_subscription_watchers (now : Int) (db : DB) : DB × Int :=
  (({ db with watchers := db.watchers.filter fun w => !decide (w.expiry ≤ now) }),
   ((db.watchers.filter fun w => decide (w.expiry ≤ now)).length : Int))

/-- A small concrete store used to instantiate theorems: one project and one
subscriber (with no scope rows) already present. -/
def dbW : DB :=
  ⟨[⟨0, "pid", "dom", "ptop", "apk", "aprk", "spk", "sprk", 0, 0⟩],
   [⟨0, 0, "acct", "kk", "top", 100, 0, 0⟩],
   [], [], 1, 1⟩

/-! ## Shared lemmas -/

theorem parseUuid_encodeUuid (u : Uuid) : parseUuid (encodeUuid u) = some u := by
  simp [parseUuid, encodeUuid, List.all_eq_true, List.mem_replicate]

theorem filterMap_parseUuid_encodeUuid (L : List Uuid) :
    (L.map encodeUuid).filterMap parseUuid = L := by
  induction L with
  | nil => rfl
  | cons a l ih => simp [List.filterMap_cons, parseUuid_encodeUuid, ih]

theorem parse_scopes_map_encode (L : List Uuid) :
    parse_scopes_and_ignore_invalid (L.map encodeUuid) = L.toFinset := by
  unfold parse_scopes_and_ignore_invalid
  rw [filterMap_parseUuid_encodeUuid]

theorem update_subscriber_scope_subscribers (sid : Nat) (L : List Uuid) (db : DB) :
    (update_subscriber_scope sid L db).subscribers = db.subscribers := rfl

theorem scope_filter_map_mk (sid : Nat) (L : List Uuid) :
    ((L.map fun u => (⟨sid, encodeUuid u⟩ : ScopeRow)).filter
        (fun c => c.subscriber == sid)).map (fun c => c.name) = L.map encodeUuid := by
  induction L with
  | nil => rfl
  | cons a l ih => simpa using ih

theorem scopeNamesOf_update_subscriber_scope (db : DB) (sid : Nat) (L : List Uuid) :
    scopeNamesOf (update_subscriber_scope sid L db) sid = L.map encodeUuid := by
  simp only [scopeNamesOf, update_subscriber_scope, scopeInsertQuery, scopeDeleteQuery,
    List.filter_append, List.filter_filter, List.map_append]
  rw [show (List.filter (fun c : ScopeRow => c.subscriber == sid && !(c.subscriber == sid))
      db.scopes) = [] from ?_]
  · simpa using scope_filter_map_mk sid L
  · simp [List.filter_eq_nil_iff]

theorem subscriberUpsertQuery_find? (project : Nat) (account sym_key topic : String)
    (now : Int) (db : DB) :
    ∃ s, ((subscriberUpsertQuery project account sym_key topic now db).1).subscribers.find?
        (fun t => t.project == project && t.account == account) = some s
      ∧ s.id = (subscriberUpsertQuery project account sym_key topic now db).2
      ∧ s.project = project ∧ s.account = account ∧ s.sym_key = sym_key
      ∧ s.topic = topic ∧ s.expiry = now + thirtyDays ∧ s.updated_at = now := by
  cases h : db.subscribers.find? (fun t => t.project == project && t.account == account) with
  | none =>
    refine ⟨⟨db.nextSubscriberId, project, account, sym_key, topic,
      now + thirtyDays, now, now⟩, ?_, ?_, rfl, rfl, rfl, rfl, rfl, rfl⟩
    · simp [subscriberUpsertQuery, h, List.find?_append]
    · simp [subscriberUpsertQuery, h]
  | some s =>
    have hpf : ((fun t : SubscriberRow => t.project == project && t.account == account) ∘
        (fun t : SubscriberRow =>
          if t.id == s.id then
            { t with updated_at := now, sym_key := sym_key, topic := topic,
                     expiry := now + thirtyDays }
          else t)) =
        fun t => t.project == project && t.account == account := by
      funext t
      by_cases ht : t.id = s.id <;> simp [ht]
    have hps := List.find?_some h
    simp only [Bool.and_eq_true, beq_iff_eq] at hps
    refine ⟨{ s with updated_at := now, sym_key := sym_key, topic := topic, expiry := now + thirtyDays }, ?_, ?_, hps.1, hps.2, rfl, rfl, rfl, rfl⟩
    · simp only [subscriberUpsertQuery, h]
      rw [List.find?_map, hpf, h]
      simp
    · simp [subscriberUpsertQuery, h]

/-! ## Claims -/

/-- C1: the scope-replace operation leaves the stored scope rows of the
subscriber exactly one row per element of the given set (first conjunct,
stated for an arbitrary state), and `upsert(P, A, xy)` followed by
`update(P, A, yz)` leaves the stored scope set of that subscriber exactly
`yz` — never the union. -/
theorem scope_replace_is_full_replace (db : DB) (sid : Nat) (scope : List Uuid)
    (db0 : DB) (P : Nat) (A : String) (xy yz : List Uuid) (k t : String)
    (now1 now2 : Int) :
    (((update_subscriber_scope sid scope db).scopes.filter
        (fun c => c.subscriber == sid)).map (fun c => c.name) = scope.map encodeUuid)
    ∧ ∃ db2 s,
        update_subscriber P A yz now2 (upsert_subscriber P A xy k t now1 db0).1
          = some (db2, s)
        ∧ s.id = (upsert_subscriber P A xy k t now1 db0).2
        ∧ scopeNamesOf db2 s.id = yz.map encodeUuid
        ∧ parse_scopes_and_ignore_invalid (scopeNamesOf db2 s.id) = yz.toFinset := by
  constructor
  · have h := scopeNamesOf_update_subscriber_scope db sid scope
    simpa [scopeNamesOf] using h
  · obtain ⟨s0, hfind, hid, -⟩ :=
      subscriberUpsertQuery_find? P A k t now1 db0
    have hsubs : (upsert_subscriber P A xy k t now1 db0).1.subscribers =
        (subscriberUpsertQuery P A k t now1 db0).1.subscribers := rfl
    obtain ⟨db2, s2, hrun⟩ : ∃ db2 s2,
        update_subscriber P A yz now2 (upsert_subscriber P A xy k t now1 db0).1
          = some (update_subscriber_scope s0.id yz db2, s2) ∧
        s2.id = s0.id := by
      unfold update_subscriber subscriberUpdateQuery
      rw [hsubs, hfind]
      exact ⟨_, _, rfl, rfl⟩
    refine ⟨update_subscriber_scope s0.id yz db2, s2, hrun.1, ?_, ?_, ?_⟩
    · rw [hrun.2]; exact hid
    · rw [hrun.2]; exact scopeNamesOf_update_subscriber_scope db2 s0.id yz
    · rw [hrun.2, scopeNamesOf_update_subscriber_scope, parse_scopes_map_encode]

theorem map_eq_self_of_forall {α : Type} (l : List α) (f : α → α)
    (h : ∀ x ∈ l, f x = x) : l.map f = l := by
  rw [List.map_congr_left h]
  exact List.map_id l

theorem scope_filter_ne_map_mk (sid : Nat) (L : List Uuid) :
    (L.map fun u => (⟨sid, encodeUuid u⟩ : ScopeRow)).filter
      (fun c => !(c.subscriber == sid)) = [] := by
  induction L with
  | nil => rfl
  | cons a l ih => simp [ih]

theorem update_subscriber_scope_idem (sid : Nat) (L : List Uuid) (db : DB) :
    update_subscriber_scope sid L (update_subscriber_scope sid L db)
      = update_subscriber_scope sid L db := by
  simp [update_subscriber_scope, scopeInsertQuery, scopeDeleteQuery,
    List.filter_append, List.filter_filter, scope_filter_ne_map_mk]

/-- C2: every run of `upsert_subscriber` or `update_subscriber`, under any
failure schedule, either aborts with an error — in which case the
transaction is rolled back and the caller's committed state is the
unchanged input `db` — or commits exactly the full atomic result (subscriber
write plus complete scope replacement).  No schedule produces a committed
state with a half-applied scope set next to a subscriber change. -/
theorem subscriber_mutations_are_atomic (fails : Nat → Bool) (project : Nat)
    (account : String) (scope : List Uuid) (sym_key notify_topic : String)
    (now : Int) (db : DB) :
    (upsert_subscriberF fails project account scope sym_key notify_topic now db
        = Except.error ()
      ∨ upsert_subscriberF fails project account scope sym_key notify_topic now db
        = Except.ok (upsert_subscriber project account scope sym_key notify_topic now db))
    ∧ (update_subscriberF fails project account scope now db = Except.error ()
      ∨ ∃ out, update_subscriber project account scope now db = some out
          ∧ update_subscriberF fails project account scope now db = Except.ok out) := by
  constructor
  · unfold upsert_subscriberF upsert_subscriber update_subscriber_scope
    by_cases h0 : fails 0 <;> by_cases h1 : fails 1 <;> by_cases h2 : fails 2 <;>
      by_cases h3 : fails 3 <;> simp [h0, h1, h2, h3]
  · unfold update_subscriberF update_subscriber update_subscriber_scope
    by_cases h0 : fails 0
    · simp [h0]
    cases hq : subscriberUpdateQuery project account now db with
    | none => simp [h0, hq]
    | some pr =>
      by_cases h1 : fails 1 <;> by_cases h2 : fails 2 <;> by_cases h3 : fails 3 <;>
        simp [h0, h1, h2, h3, hq]

/-- C3: `upsert_subscriber` upserts the subscriber row keyed by
`(project, account)` — setting `sym_key`, `topic`, `expiry = now + 30 days`
and `updated_at = now` — then replaces the scope set, and returns that row's
id; repeating the call with identical inputs leaves the state unchanged
(idempotent).  The hypothesis is the id-sequence freshness invariant of the
backing store (no existing row already uses the next sequence value). -/
theorem upsert_subscriber_spec (db : DB) (P : Nat) (A : String) (S : List Uuid)
    (k t : String) (now : Int)
    (hfresh : ∀ r ∈ db.subscribers, r.id ≠ db.nextSubscriberId) :
    (∃ r, (upsert_subscriber P A S k t now db).1.subscribers.find?
          (fun s => s.project == P && s.account == A) = some r
      ∧ r.id = (upsert_subscriber P A S k t now db).2
      ∧ r.project = P ∧ r.account = A ∧ r.sym_key = k ∧ r.topic = t
      ∧ r.expiry = now + thirtyDays ∧ r.updated_at = now)
    ∧ scopeNamesOf (upsert_subscriber P A S k t now db).1
        (upsert_subscriber P A S k t now db).2 = S.map encodeUuid
    ∧ upsert_subscriber P A S k t now (upsert_subscriber P A S k t now db).1
        = upsert_subscriber P A S k t now db := by
  refine ⟨subscriberUpsertQuery_find? P A k t now db,
    scopeNamesOf_update_subscriber_scope _ _ _, ?_⟩
  cases h : db.subscribers.find? (fun s => s.project == P && s.account == A) with
  | none =>
    simp only [upsert_subscriber, subscriberUpsertQuery, h, update_subscriber_scope,
      scopeInsertQuery, scopeDeleteQuery]
    rw [List.find?_append, h]
    simp [List.filter_append, List.filter_filter, scope_filter_ne_map_mk]
    exact map_eq_self_of_forall _ _ (fun x hx => by simp [hfresh x hx])
  | some s =>
    have hpf : ((fun t2 : SubscriberRow => t2.project == P && t2.account == A) ∘
        (fun t2 : SubscriberRow =>
          if t2.id == s.id then { t2 with updated_at := now, sym_key := k, topic := t, expiry := now + thirtyDays } else t2)) =
        fun t2 => t2.project == P && t2.account == A := by
      funext t2
      by_cases ht : t2.id = s.id <;> simp [ht]
    simp only [upsert_subscriber, subscriberUpsertQuery, h, update_subscriber_scope,
      scopeInsertQuery, scopeDeleteQuery]
    rw [List.find?_map, hpf, h]
    simp [List.filter_append, List.filter_filter, scope_filter_ne_map_mk, List.map_map]
    intro a ha hid2
    by_cases ht : a.id = s.id
    · simp [ht]
    · simp [ht] at hid2

theorem upsert_project_find? (pid d t ak aprk sk sprk : String) (now : Int) (db : DB) :
    ∃ p, (upsert_project_impl pid d t ak aprk sk sprk now db).1.projects.find?
        (fun q => q.project_id == pid) = some p
      ∧ (upsert_project_impl pid d t ak aprk sk sprk now db).2
          = ⟨p.authentication_public_key, p.subscribe_public_key⟩
      ∧ p.project_id = pid ∧ p.app_domain = d ∧ p.updated_at = now := by
  cases h : db.projects.find? (fun q => q.project_id == pid) with
  | none =>
    refine ⟨⟨db.nextProjectId, pid, d, t, ak, aprk, sk, sprk, now, now⟩,
      ?_, ?_, rfl, rfl, rfl⟩
    · simp [upsert_project_impl, h, List.find?_append]
    · simp [upsert_project_impl, h]
  | some p =>
    have hps := List.find?_some h
    simp only [beq_iff_eq] at hps
    have hpf : ((fun q : ProjectRow => q.project_id == pid) ∘
        (fun q : ProjectRow =>
          if q.id == p.id then { q with updated_at := now, app_domain := d } else q)) =
        fun q : ProjectRow => q.project_id == pid := by
      funext q
      by_cases hq : q.id = p.id <;> simp [hq]
    refine ⟨{ p with updated_at := now, app_domain := d }, ?_, ?_, hps, rfl, rfl⟩
    · simp only [upsert_project_impl, h]
      rw [List.find?_map, hpf, h]
      simp
    · simp [upsert_project_impl, h]

/-- C4: upserting a project whose external id already exists updates only
`app_domain` and `updated_at` of the stored row — its topic and all four key
fields are untouched (first-write-wins) — every other row is untouched, no
new id is allocated, and the returned public keys are the stored ones, i.e.
those returned by the first call, not the just-supplied ones. -/
theorem upsert_project_first_write_wins (db : DB) (pid : String)
    (d1 t1 ak1 aprk1 sk1 sprk1 : String) (now1 : Int)
    (d2 t2 ak2 aprk2 sk2 sprk2 : String) (now2 : Int) :
    (upsert_project_impl pid d2 t2 ak2 aprk2 sk2 sprk2 now2
        (upsert_project_impl pid d1 t1 ak1 aprk1 sk1 sprk1 now1 db).1).2
      = (upsert_project_impl pid d1 t1 ak1 aprk1 sk1 sprk1 now1 db).2
    ∧ (upsert_project_impl pid d2 t2 ak2 aprk2 sk2 sprk2 now2
        (upsert_project_impl pid d1 t1 ak1 aprk1 sk1 sprk1 now1 db).1).1.nextProjectId
      = (upsert_project_impl pid d1 t1 ak1 aprk1 sk1 sprk1 now1 db).1.nextProjectId
    ∧ ∃ p,
        (upsert_project_impl pid d1 t1 ak1 aprk1 sk1 sprk1 now1 db).1.projects.find?
            (fun q => q.project_id == pid) = some p
        ∧ (upsert_project_impl pid d1 t1 ak1 aprk1 sk1 sprk1 now1 db).2
            = ⟨p.authentication_public_key, p.subscribe_public_key⟩
        ∧ (upsert_project_impl pid d2 t2 ak2 aprk2 sk2 sprk2 now2
              (upsert_project_impl pid d1 t1 ak1 aprk1 sk1 sprk1 now1 db).1).1.projects.find?
            (fun q => q.project_id == pid)
            = some { p with updated_at := now2, app_domain := d2 }
        ∧ (upsert_project_impl pid d2 t2 ak2 aprk2 sk2 sprk2 now2
              (upsert_project_impl pid d1 t1 ak1 aprk1 sk1 sprk1 now1 db).1).1.projects.filter
            (fun q => !(q.id == p.id))
            = (upsert_project_impl pid d1 t1 ak1 aprk1 sk1 sprk1 now1 db).1.projects.filter
            (fun q => !(q.id == p.id)) := by
  obtain ⟨p, hp, hkeys, hpid, hdom, hupd⟩ :=
    upsert_project_find? pid d1 t1 ak1 aprk1 sk1 sprk1 now1 db
  set R := upsert_project_impl pid d1 t1 ak1 aprk1 sk1 sprk1 now1 db with hR
  have hpf : ((fun q : ProjectRow => q.project_id == pid) ∘
      (fun q : ProjectRow =>
        if q.id == p.id then { q with updated_at := now2, app_domain := d2 } else q)) =
      fun q : ProjectRow => q.project_id == pid := by
    funext q
    by_cases hq : q.id = p.id <;> simp [hq]
  have hpf2 : ((fun q : ProjectRow => !(q.id == p.id)) ∘
      (fun q : ProjectRow =>
        if q.id == p.id then { q with updated_at := now2, app_domain := d2 } else q)) =
      fun q : ProjectRow => !(q.id == p.id) := by
    funext q
    by_cases hq : q.id = p.id <;> simp [hq]
  refine ⟨?_, ?_, p, hp, hkeys, ?_, ?_⟩
  · simp only [upsert_project_impl, hp]
    exact hkeys.symm
  · simp only [upsert_project_impl, hp]
  · simp only [upsert_project_impl, hp]
    rw [List.find?_map, hpf, hp]
    simp
  · simp only [upsert_project_impl, hp]
    rw [List.filter_map, hpf2]
    refine map_eq_self_of_forall _ _ (fun q hq => ?_)
    have hne := (List.mem_filter.mp hq).2
    simp only [Bool.not_eq_eq_eq_not, Bool.not_true, beq_eq_false_iff_ne] at hne
    simp [hne]


/-- C5: `update_subscriber` leaves every stored subscriber's identity,
`sym_key` and `topic` unchanged — the returned row is the matched row with
only `expiry` set to `now + 30 days` and `updated_at` set to `now` — and it
replaces the matched subscriber's scope set with exactly the given set.
When no subscriber row exists for `(project, account)` (modelled by removing
every matching row), it fails with the row-not-found condition rather than
inserting. -/
theorem update_subscriber_frame (db : DB) (P : Nat) (A : String) (S : List Uuid)
    (now : Int) (s : SubscriberRow)
    (h : db.subscribers.find? (fun r => r.project == P && r.account == A) = some s) :
    (∃ db2, update_subscriber P A S now db
        = some (db2, { s with updated_at := now, expiry := now + thirtyDays })
      ∧ db2.subscribers.map (fun r => r.id) = db.subscribers.map (fun r => r.id)
      ∧ db2.subscribers.map (fun r => (r.project, r.account))
          = db.subscribers.map (fun r => (r.project, r.account))
      ∧ db2.subscribers.map (fun r => r.sym_key) = db.subscribers.map (fun r => r.sym_key)
      ∧ db2.subscribers.map (fun r => r.topic) = db.subscribers.map (fun r => r.topic)
      ∧ scopeNamesOf db2 s.id = S.map encodeUuid)
    ∧ update_subscriber P A S now
        { db with subscribers :=
            db.subscribers.filter (fun r => !(r.project == P && r.account == A)) }
      = none := by
  constructor
  · refine ⟨update_subscriber_scope s.id S { db with subscribers := db.subscribers.map fun r => if r.project == P && r.account == A then { r with updated_at := now, expiry := now + thirtyDays } else r }, ?_, ?_, ?_, ?_, ?_, ?_⟩
    · unfold update_subscriber subscriberUpdateQuery
      rw [h]
    · simp only [update_subscriber_scope, scopeInsertQuery, scopeDeleteQuery,
        List.map_map]
      exact List.map_congr_left fun r hr => by
        by_cases hc : r.project = P ∧ r.account = A <;> simp [hc]
    · simp only [update_subscriber_scope, scopeInsertQuery, scopeDeleteQuery,
        List.map_map]
      exact List.map_congr_left fun r hr => by
        by_cases hc : r.project = P ∧ r.account = A <;> simp [hc]
    · simp only [update_subscriber_scope, scopeInsertQuery, scopeDeleteQuery,
        List.map_map]
      exact List.map_congr_left fun r hr => by
        by_cases hc : r.project = P ∧ r.account = A <;> simp [hc]
    · simp only [update_subscriber_scope, scopeInsertQuery, scopeDeleteQuery,
        List.map_map]
      exact List.map_congr_left fun r hr => by
        by_cases hc : r.project = P ∧ r.account = A <;> simp [hc]
    · exact scopeNamesOf_update_subscriber_scope _ _ _
  · have hnone : (db.subscribers.filter
        (fun r => !(r.project == P && r.account == A))).find?
        (fun r => r.project == P && r.account == A) = none := by
      rw [List.find?_eq_none]
      intro x hx
      have hx2 := (List.mem_filter.mp hx).2
      simp only [Bool.not_eq_eq_eq_not, Bool.not_true] at hx2
      simp [hx2]
    unfold update_subscriber subscriberUpdateQuery
    rw [hnone]


theorem length_filter_not_add {α : Type} (l : List α) (p : α → Bool) :
    (l.filter fun x => !(p x)).length + (l.filter p).length = l.length := by
  induction l with
  | nil => rfl
  | cons a l ih => by_cases h : p a <;> simp [h, ← ih] <;> omega

/-- C6: the expiry sweep at time `now` deletes exactly the watcher rows with
`expiry ≤ now`, keeping every row with a strictly future expiry unchanged;
it returns the number of rows removed (kept + removed = total), and an
immediately repeated sweep removes nothing (returns 0) and leaves the state
fixed. -/
theorem delete_expired_watchers_exact (db : DB) (now : Int) :
    (delete_expired_subscription_watchers now db).1.watchers
        = db.watchers.filter (fun w => decide (now < w.expiry))
    ∧ (delete_expired_subscription_watchers now db).2
        = ((db.watchers.filter fun w => decide (w.expiry ≤ now)).length : Int)
    ∧ (delete_expired_subscription_watchers now db).1.watchers.length
        + (db.watchers.filter fun w => decide (w.expiry ≤ now)).length
        = db.watchers.length
    ∧ (delete_expired_subscription_watchers now
        (delete_expired_subscription_watchers now db).1).2 = 0
    ∧ (delete_expired_subscription_watchers now
        (delete_expired_subscription_watchers now db).1).1
      = (delete_expired_subscription_watchers now db).1 := by
  refine ⟨?_, rfl, ?_, ?_, ?_⟩
  · exact List.filter_congr fun w _ => by
      rw [← decide_not]
      exact decide_eq_decide.mpr not_le
  · exact length_filter_not_add db.watchers (fun w => decide (w.expiry ≤ now))
  · simp [delete_expired_subscription_watchers, List.filter_filter]
  · simp [delete_expired_subscription_watchers, List.filter_filter]

theorem watcherAppMatch_iff (d : String) (db : DB) (w : WatcherRow) :
    watcherAppMatch d db w = true ↔
      (w.project = none
        ∨ ∃ p ∈ db.projects, w.project = some p.id ∧ p.app_domain = d) := by
  cases hw : w.project with
  | none => simp [watcherAppMatch, hw]
  | some pid =>
    simp only [watcherAppMatch, hw, List.any_eq_true, Bool.and_eq_true, beq_iff_eq]
    constructor
    · rintro ⟨p, hp, h1, h2⟩
      exact Or.inr ⟨p, hp, by rw [h1], h2⟩
    · rintro (hc | ⟨p, hp, h1, h2⟩)
      · exact absurd hc (by simp)
      · exact ⟨p, hp, by injection h1 with h1; rw [h1], h2⟩

/-- C7: the active-watcher query for an account and app domain returns
exactly the stored watcher rows whose expiry is strictly in the future,
whose account matches, and whose project reference is null (global watcher)
or resolves to a project row with the given app domain; expired rows and
rows scoped to a different app domain are excluded. -/
theorem get_watchers_membership (db : DB) (a d : String) (now : Int)
    (q : SubscriptionWatcherQuery) :
    q ∈ get_subscription_watchers_for_account_by_app_or_all_app a d now db
      ↔ ∃ w ∈ db.watchers, q = ⟨w.project, w.did_key, w.sym_key⟩
          ∧ now < w.expiry ∧ w.account = a
          ∧ (w.project = none
              ∨ ∃ p ∈ db.projects, w.project = some p.id ∧ p.app_domain = d) := by
  constructor
  · intro hq
    obtain ⟨w, hwf, hfq⟩ := List.mem_map.mp hq
    obtain ⟨hw, hcond⟩ := List.mem_filter.mp hwf
    simp only [Bool.and_eq_true, decide_eq_true_eq, beq_iff_eq] at hcond
    exact ⟨w, hw, hfq.symm, hcond.1.1, hcond.1.2,
      (watcherAppMatch_iff d db w).mp hcond.2⟩
  · rintro ⟨w, hw, hq, he, ha, hm⟩
    refine List.mem_map.mpr ⟨w, List.mem_filter.mpr ⟨hw, ?_⟩, hq.symm⟩
    simp only [Bool.and_eq_true, decide_eq_true_eq, beq_iff_eq]
    exact ⟨⟨he, ha⟩, (watcherAppMatch_iff d db w).mpr hm⟩

/-- C8: scope decoding is tolerant and lossy: the decoded set contains
exactly the values of the entries that parse, so a list with one valid and
one malformed entry decodes to the singleton of the valid value, and the
decoding itself is total (the read never fails because of a bad entry). -/
theorem parse_scopes_lossy (scopes : List String) (u : Uuid) :
    (u ∈ parse_scopes_and_ignore_invalid scopes
      ↔ ∃ s ∈ scopes, parseUuid s = some u)
    ∧ parse_scopes_and_ignore_invalid [encodeUuid 5, "garbage"] = {5} := by
  constructor
  · simp [parse_scopes_and_ignore_invalid, List.mem_filterMap]
  · decide


/-- C9 counterexample: the claim fails at the empty scope set.  Upserting a
subscriber with scope set `∅` and a fresh notify topic and then reading by
that topic does not return a record with scope `∅`: the INNER JOIN of the
read produces no group, so the read fails with the row-not-found condition. -/
theorem upsert_then_read_by_topic_empty_counterexample :
    get_subscriber_by_topic "top2"
      (upsert_subscriber 0 "acct" [] "kk2" "top2" 50 dbW).1 = none := by
  decide

/-- C9 (amended): upserting a subscriber with a non-empty scope set `S` and
notify topic `t`, then reading by that topic, returns that subscriber with a
scope set equal to `S` as an unordered set, whatever the iteration order of
`S`; at `S = ∅` the read instead fails with row-not-found (see the
counterexample above and C10).  The other hypothesis says no other
subscriber already uses the topic (the source derives the topic from the
fresh symmetric key). -/
theorem upsert_then_read_by_topic (db : DB) (P : Nat) (A : String) (S : List Uuid)
    (k t : String) (now : Int)
    (htopic : ∀ r ∈ db.subscribers, r.topic ≠ t) (hS : S ≠ []) :
    ∃ rec, get_subscriber_by_topic t (upsert_subscriber P A S k t now db).1 = some rec
      ∧ rec.scope = S.toFinset
      ∧ rec.id = (upsert_subscriber P A S k t now db).2 := by
  have hnames : scopeNamesOf (upsert_subscriber P A S k t now db).1
      (upsert_subscriber P A S k t now db).2 = S.map encodeUuid :=
    scopeNamesOf_update_subscriber_scope _ _ _
  have hne : ((scopeNamesOf (upsert_subscriber P A S k t now db).1
      (upsert_subscriber P A S k t now db).2).isEmpty) = false := by
    rw [hnames]
    simp [hS]
  have hAB : (∀ r ∈ (upsert_subscriber P A S k t now db).1.subscribers,
        r.topic = t → r.id = (upsert_subscriber P A S k t now db).2)
      ∧ ∃ r ∈ (upsert_subscriber P A S k t now db).1.subscribers,
          r.topic = t ∧ r.id = (upsert_subscriber P A S k t now db).2 := by
    cases h : db.subscribers.find? (fun r => r.project == P && r.account == A) with
    | none =>
      constructor
      · intro r hr hrt
        simp only [upsert_subscriber, subscriberUpsertQuery, h, update_subscriber_scope,
          scopeInsertQuery, scopeDeleteQuery] at hr ⊢
        rcases List.mem_append.mp hr with hr2 | hr2
        · exact absurd hrt (htopic r hr2)
        · simp only [List.mem_singleton] at hr2
          rw [hr2]
      · refine ⟨⟨db.nextSubscriberId, P, A, k, t, now + thirtyDays, now, now⟩,
          ?_, rfl, ?_⟩
        · simp [upsert_subscriber, subscriberUpsertQuery, h, update_subscriber_scope,
            scopeInsertQuery, scopeDeleteQuery]
        · simp [upsert_subscriber, subscriberUpsertQuery, h, update_subscriber_scope,
            scopeInsertQuery, scopeDeleteQuery]
    | some s =>
      have hs_mem := List.mem_of_find?_eq_some h
      constructor
      · intro r hr hrt
        simp only [upsert_subscriber, subscriberUpsertQuery, h, update_subscriber_scope,
          scopeInsertQuery, scopeDeleteQuery] at hr ⊢
        obtain ⟨x, hx, rfl⟩ := List.mem_map.mp hr
        by_cases hid : x.id = s.id
        · simp [hid]
        · simp only [beq_iff_eq, hid, if_false] at hrt ⊢
          exact absurd hrt (htopic x hx)
      · simp only [upsert_subscriber, subscriberUpsertQuery, h, update_subscriber_scope,
          scopeInsertQuery, scopeDeleteQuery]
        refine ⟨_, List.mem_map.mpr ⟨s, hs_mem, rfl⟩, ?_, ?_⟩
        · simp
        · simp
  obtain ⟨hA, r1, hr1mem, hr1t, hr1id⟩ := hAB
  have hfe : (upsert_subscriber P A S k t now db).1.subscribers.filter
      (fun r => r.topic == t
        && !(scopeNamesOf (upsert_subscriber P A S k t now db).1 r.id).isEmpty)
      = (upsert_subscriber P A S k t now db).1.subscribers.filter
        (fun r => r.topic == t) := by
    refine List.filter_congr fun r hr => ?_
    by_cases hrt : r.topic = t
    · simp [hrt, hA r hr hrt, hne]
    · simp [hrt]
  simp only [get_subscriber_by_topic, hfe]
  cases hF : (upsert_subscriber P A S k t now db).1.subscribers.filter
      (fun r => r.topic == t) with
  | nil =>
    exfalso
    have := List.filter_eq_nil_iff.mp hF r1 hr1mem
    simp [hr1t] at this
  | cons r0 l0 =>
    have hr0 : r0 ∈ (upsert_subscriber P A S k t now db).1.subscribers.filter
        (fun r => r.topic == t) := by
      rw [hF]
      exact List.mem_cons_self r0 l0
    have hr0mem := (List.mem_filter.mp hr0).1
    have hr0t : r0.topic = t := by simpa using (List.mem_filter.mp hr0).2
    have hr0id : r0.id = (upsert_subscriber P A S k t now db).2 := hA r0 hr0mem hr0t
    refine ⟨subscriberWithScope (upsert_subscriber P A S k t now db).1 r0, ?_, ?_, ?_⟩
    · rfl
    · simp [subscriberWithScope, hr0id, hnames, parse_scopes_map_encode]
    · simpa [subscriberWithScope] using hr0id


theorem flatMap_erase_of_eq_nil {α β : Type} [DecidableEq α] (l : List α) (x : α)
    (f : α → List β) (hx : f x = []) : (l.erase x).flatMap f = l.flatMap f := by
  induction l with
  | nil => rfl
  | cons a l ih =>
    by_cases hax : a = x
    · subst hax
      rw [List.erase_cons_head]
      simp [List.flatMap_cons, hx]
    · rw [List.erase_cons_tail (by simp [hax])]
      simp [List.flatMap_cons, ih]

/-- C10: a subscriber whose stored scope set is empty is invisible to the
join-based reads even though its subscriber row exists: reading by its topic
fails with the row-not-found condition, the project-wide read returns no
record for it, and the account-wide read's result does not change when the
row is deleted outright. -/
theorem empty_scope_subscriber_invisible (db : DB) (s : SubscriberRow)
    (accounts : List String) (a : String)
    (hscope : ∀ c ∈ db.scopes, c.subscriber ≠ s.id)
    (htopic : ∀ r ∈ db.subscribers, r.topic = s.topic → r.id = s.id) :
    get_subscriber_by_topic s.topic db = none
    ∧ (∀ out ∈ get_subscribers_for_project_in s.project accounts db, out.id ≠ s.id)
    ∧ get_subscriptions_by_account a
        { db with subscribers := db.subscribers.erase s }
      = get_subscriptions_by_account a db := by
  have hf0 : db.scopes.filter (fun c => c.subscriber == s.id) = [] := by
    rw [List.filter_eq_nil_iff]
    intro c hc
    simp [hscope c hc]
  have hnames0 : scopeNamesOf db s.id = [] := by
    simp only [scopeNamesOf, hf0, List.map_nil]
  refine ⟨?_, ?_, ?_⟩
  · have hfil : db.subscribers.filter
        (fun r => r.topic == s.topic && !(scopeNamesOf db r.id).isEmpty) = [] := by
      rw [List.filter_eq_nil_iff]
      intro r hr
      by_cases hrt : r.topic = s.topic
      · simp [hrt, htopic r hr hrt, hnames0]
      · simp [hrt]
    simp [get_subscriber_by_topic, hfil]
  · intro out hout
    simp only [get_subscribers_for_project_in] at hout
    obtain ⟨r, hrf, rfl⟩ := List.mem_map.mp hout
    have hcond := (List.mem_filter.mp hrf).2
    intro hid
    simp only [subscriberWithScope] at hid
    rw [hid, hnames0] at hcond
    simp at hcond
  · have hrows : subsByAccountRows a { db with subscribers := db.subscribers.erase s }
        = subsByAccountRows a db := by
      simp only [subsByAccountRows]
      exact flatMap_erase_of_eq_nil db.subscribers s _ (by
        by_cases hsa : s.account = a <;> simp [hsa, hf0])
    simp only [get_subscriptions_by_account, hrows]


theorem upsert_subscriber_spec_witness :
    (∀ r ∈ dbW.subscribers, r.id ≠ dbW.nextSubscriberId)
    ∧ ((∃ r, (upsert_subscriber 0 "acct" [3] "kk" "top" 50 dbW).1.subscribers.find?
          (fun s => s.project == 0 && s.account == "acct") = some r
        ∧ r.id = (upsert_subscriber 0 "acct" [3] "kk" "top" 50 dbW).2
        ∧ r.project = 0 ∧ r.account = "acct" ∧ r.sym_key = "kk" ∧ r.topic = "top"
        ∧ r.expiry = 50 + thirtyDays ∧ r.updated_at = 50)
      ∧ scopeNamesOf (upsert_subscriber 0 "acct" [3] "kk" "top" 50 dbW).1
          (upsert_subscriber 0 "acct" [3] "kk" "top" 50 dbW).2
          = [3].map encodeUuid
      ∧ upsert_subscriber 0 "acct" [3] "kk" "top" 50
            (upsert_subscriber 0 "acct" [3] "kk" "top" 50 dbW).1
          = upsert_subscriber 0 "acct" [3] "kk" "top" 50 dbW) :=
  ⟨by decide, upsert_subscriber_spec dbW 0 "acct" [3] "kk" "top" 50 (by decide)⟩

theorem update_subscriber_frame_witness :
    dbW.subscribers.find? (fun r => r.project == 0 && r.account == "acct")
      = some ⟨0, 0, "acct", "kk", "top", 100, 0, 0⟩
    ∧ ((∃ db2, update_subscriber 0 "acct" [7] 50 dbW
        = some (db2, { (⟨0, 0, "acct", "kk", "top", 100, 0, 0⟩ : SubscriberRow) with
            updated_at := 50, expiry := 50 + thirtyDays })
      ∧ db2.subscribers.map (fun r => r.id) = dbW.subscribers.map (fun r => r.id)
      ∧ db2.subscribers.map (fun r => (r.project, r.account))
          = dbW.subscribers.map (fun r => (r.project, r.account))
      ∧ db2.subscribers.map (fun r => r.sym_key)
          = dbW.subscribers.map (fun r => r.sym_key)
      ∧ db2.subscribers.map (fun r => r.topic) = dbW.subscribers.map (fun r => r.topic)
      ∧ scopeNamesOf db2 (⟨0, 0, "acct", "kk", "top", 100, 0, 0⟩ : SubscriberRow).id
          = [7].map encodeUuid)
    ∧ update_subscriber 0 "acct" [7] 50
        { dbW with subscribers :=
            dbW.subscribers.filter (fun r => !(r.project == 0 && r.account == "acct")) }
      = none) :=
  ⟨by decide, update_subscriber_frame dbW 0 "acct" [7] 50
    ⟨0, 0, "acct", "kk", "top", 100, 0, 0⟩ (by decide)⟩

theorem upsert_then_read_by_topic_witness :
    (∀ r ∈ dbW.subscribers, r.topic ≠ "top2") ∧ ([3, 5] : List Uuid) ≠ []
    ∧ ∃ rec, get_subscriber_by_topic "top2"
          (upsert_subscriber 0 "acct" [3, 5] "kk2" "top2" 50 dbW).1 = some rec
        ∧ rec.scope = ([3, 5] : List Uuid).toFinset
        ∧ rec.id = (upsert_subscriber 0 "acct" [3, 5] "kk2" "top2" 50 dbW).2 :=
  ⟨by decide, by decide,
    upsert_then_read_by_topic dbW 0 "acct" [3, 5] "kk2" "top2" 50 (by decide) (by decide)⟩

theorem empty_scope_subscriber_invisible_witness :
    (∀ c ∈ dbW.scopes, c.subscriber ≠ (⟨0, 0, "acct", "kk", "top", 100, 0, 0⟩ : SubscriberRow).id)
    ∧ (∀ r ∈ dbW.subscribers,
        r.topic = (⟨0, 0, "acct", "kk", "top", 100, 0, 0⟩ : SubscriberRow).topic →
        r.id = (⟨0, 0, "acct", "kk", "top", 100, 0, 0⟩ : SubscriberRow).id)
    ∧ get_subscriber_by_topic (⟨0, 0, "acct", "kk", "top", 100, 0, 0⟩ : SubscriberRow).topic dbW = none
    ∧ (∀ out ∈ get_subscribers_for_project_in
          (⟨0, 0, "acct", "kk", "top", 100, 0, 0⟩ : SubscriberRow).project ["acct"] dbW,
        out.id ≠ (⟨0, 0, "acct", "kk", "top", 100, 0, 0⟩ : SubscriberRow).id)
    ∧ get_subscriptions_by_account "acct"
        { dbW with subscribers :=
            dbW.subscribers.erase ⟨0, 0, "acct", "kk", "top", 100, 0, 0⟩ }
      = get_subscriptions_by_account "acct" dbW :=
  ⟨by decide, by decide,
    (empty_scope_subscriber_invisible dbW ⟨0, 0, "acct", "kk", "top", 100, 0, 0⟩
      ["acct"] "acct" (by decide) (by decide)).1,
    (empty_scope_subscriber_invisible dbW ⟨0, 0, "acct", "kk", "top", 100, 0, 0⟩
      ["acct"] "acct" (by decide) (by decide)).2.1,
    (empty_scope_subscriber_invisible dbW ⟨0, 0, "acct", "kk", "top", 100, 0, 0⟩
      ["acct"] "acct" (by decide) (by decide)).2.2⟩


end NotifyServer
